import Mathlib

/-!
Shallow embedding of the adaptive assessment engine of
`boardside-chess-coach` (`src/domain/quiz/types.ts`,
`src/domain/quiz/ArchetypeCalculator.ts`, `src/domain/quiz/QuizEngine.ts`).

Numbers: TypeScript `number` values here are always integers except inside
`calculateConfidence` / `getProgress`, whose intermediate arithmetic is
modelled over `ℚ` with `round` (JS `Math.round x = ⌊x + 1/2⌋`).
Strings are `String`; `===` is `==`. The JS `Map` built by
`buildAnswerLookup` is modelled as a `String → Option Answer` function with
last-insertion-wins semantics, matching `Map.set` overwrites.
-/

namespace BoardsideQuiz

/-- `Archetype` union type from `types.ts`. -/
inductive Archetype where
  | TJ
  | TP
  | FJ
  | FP
  | Neutral
deriving DecidableEq, Repr

/-- `Answer` interface from `types.ts`. -/
structure Answer where
  id : String
  text : String
  scoreTF : Int
  scoreJP : Int
deriving DecidableEq, Repr

/-- `Question` interface from `types.ts` (the `dimension` field is omitted:
no engine code reads it). -/
structure Question where
  id : String
  text : String
  answers : List Answer
deriving DecidableEq, Repr

/-- `QuizResponse` interface from `types.ts`. -/
structure QuizResponse where
  questionId : String
  answerId : String
  timestamp : Nat
deriving DecidableEq, Repr

/-- `QuizSession` interface from `types.ts`. -/
structure QuizSession where
  responses : List QuizResponse
  currentScoreTF : Int
  currentScoreJP : Int
  isComplete : Bool
  archetype : Option Archetype := none
  confidence : Int
deriving DecidableEq, Repr

/-- `ArchetypeResult` interface from `types.ts`. -/
structure ArchetypeResult where
  archetype : Archetype
  confidence : Int
  scoreTF : Int
  scoreJP : Int
  explanation : String
deriving DecidableEq, Repr

/-- `CONFIDENCE_THRESHOLD` constant from `types.ts`. -/
def CONFIDENCE_THRESHOLD : Int := 80

/-- `MINIMUM_QUESTIONS` constant from `types.ts`. -/
def MINIMUM_QUESTIONS : Nat := 5

/-- `MAXIMUM_QUESTIONS` constant from `types.ts`. -/
def MAXIMUM_QUESTIONS : Nat := 10

/-- `ARCHETYPE_DESCRIPTIONS` record from `types.ts`. -/
def ARCHETYPE_DESCRIPTIONS : Archetype → String
  | .TJ => "Tactical-Structured: You learn best through systematic tactical training with clear patterns and rules."
  | .TP => "Tactical-Experimental: You learn best through tactical puzzles and experimentation with different combinations."
  | .FJ => "Strategic-Structured: You learn best through positional understanding and structured study of strategic principles."
  | .FP => "Strategic-Experimental: You learn best through exploring creative strategic ideas and playing various positions."
  | .Neutral => "Balanced: You benefit from a mix of tactical and strategic content with varied learning approaches."

/-- `calculateConfidence` from `ArchetypeCalculator.ts` (lines 102-130). -/
def calculateConfidence (scoreTF scoreJP : Int) (responseCount : Nat) : Int :=
  if responseCount = 0 then 0
  else
    let avgMagnitude : ℚ :=
      ((|scoreTF| : ℤ) + (|scoreJP| : ℤ) : ℚ) / ((responseCount : ℚ) * 2)
    let maxPossibleAvg : ℚ := 2
    let baseConfidence : ℚ := min (avgMagnitude / maxPossibleAvg) 1
    let responseFactor : ℚ := min ((responseCount : ℚ) / 10) 1
    let confidence : ℚ := baseConfidence * (7/10) + responseFactor * (3/10)
    round (confidence * 100)

/-- `determineArchetype` from `ArchetypeCalculator.ts` (lines 69-93). -/
def determineArchetype (scoreTF scoreJP : Int) : Archetype :=
  let threshold : Int := 2
  if |scoreTF| < threshold ∧ |scoreJP| < threshold then
    .Neutral
  else
    let isThinking : Bool := decide (0 ≤ scoreTF)
    let isJudging : Bool := decide (0 ≤ scoreJP)
    if isThinking && isJudging then .TJ
    else if isThinking && !isJudging then .TP
    else if !isThinking && isJudging then .FJ
    else .FP

/-- `calculateArchetype` from `ArchetypeCalculator.ts` (lines 22-61); the
lookup-miss branch of the summation loop skips the response, as in the
source (`if (answer) { ... }`). -/
def calculateArchetype (responses : List QuizResponse)
    (answerLookup : String → Option Answer) : ArchetypeResult :=
  if responses.length = 0 then
    { archetype := .Neutral
      confidence := 0
      scoreTF := 0
      scoreJP := 0
      explanation := ARCHETYPE_DESCRIPTIONS .Neutral }
  else
    let totals : Int × Int := responses.foldl
      (fun t r =>
        match answerLookup r.answerId with
        | some a => (t.1 + a.scoreTF, t.2 + a.scoreJP)
        | none => t)
      (0, 0)
    let archetype := determineArchetype totals.1 totals.2
    let confidence := calculateConfidence totals.1 totals.2 responses.length
    { archetype := archetype
      confidence := confidence
      scoreTF := totals.1
      scoreJP := totals.2
      explanation := ARCHETYPE_DESCRIPTIONS archetype }

/-- The three `throw new Error(...)` cases of `QuizEngine.answerQuestion`,
as the spec's error taxonomy names them. -/
inductive QuizError where
  | sessionAlreadyComplete
  | invalidQuestion (questionId : String)
  | invalidAnswer (questionId answerId : String)
deriving DecidableEq, Repr

/-- `QuizEngine.initializeSession` (QuizEngine.ts lines 174-182). -/
def initializeSession : QuizSession :=
  { responses := []
    currentScoreTF := 0
    currentScoreJP := 0
    isComplete := false
    archetype := none
    confidence := 0 }

/-- `QuizEngine.buildAnswerLookup` (lines 199-209): a JS `Map` keyed by
answer id, written by nested loops over questions then answers, later
`set`s overwriting earlier ones. -/
def buildAnswerLookup (questions : List Question) : String → Option Answer :=
  (questions.flatMap Question.answers).foldl
    (fun lookup a => fun key => if key = a.id then some a else lookup key)
    (fun _ => none)

/-- `QuizEngine.shouldTerminateEarly` (lines 119-129). -/
def shouldTerminateEarly (s : QuizSession) : Bool :=
  if s.responses.length < MINIMUM_QUESTIONS then false
  else decide (CONFIDENCE_THRESHOLD ≤ s.confidence)

/-- `QuizEngine.completeQuiz` (lines 187-192). -/
def completeQuiz (questions : List Question) (s : QuizSession) : QuizSession :=
  let result := calculateArchetype s.responses (buildAnswerLookup questions)
  { s with
    isComplete := true
    archetype := some result.archetype
    confidence := result.confidence }

/-- `QuizEngine.answerQuestion` (lines 70-113). The TS method throws before
any mutation, so the failure cases return the error without a new state;
`timestamp` stands for the `Date.now()` call. The `||` of the completion
check is modelled with the same short-circuit order as the source. -/
def answerQuestion (questions : List Question) (s : QuizSession)
    (questionId answerId : String) (timestamp : Nat) :
    Except QuizError QuizSession :=
  if s.isComplete then .error .sessionAlreadyComplete
  else
    match questions.find? (fun q => q.id == questionId) with
    | none => .error (.invalidQuestion questionId)
    | some question =>
      match question.answers.find? (fun a => a.id == answerId) with
      | none => .error (.invalidAnswer questionId answerId)
      | some answer =>
        let response : QuizResponse :=
          { questionId := questionId
            answerId := answerId
            timestamp := timestamp }
        let responses := s.responses ++ [response]
        let newTF := s.currentScoreTF + answer.scoreTF
        let newJP := s.currentScoreJP + answer.scoreJP
        let s1 : QuizSession :=
          { s with
            responses := responses
            currentScoreTF := newTF
            currentScoreJP := newJP
            confidence := calculateConfidence newTF newJP responses.length }
        if decide (MAXIMUM_QUESTIONS ≤ responses.length)
            || shouldTerminateEarly s1 then
          .ok (completeQuiz questions s1)
        else
          .ok s1

/-- `QuizEngine.getNextQuestion` (lines 46-63): returns the next question
(if any) together with the session state after the call, since an
early-termination check inside it can complete the quiz. -/
def getNextQuestion (questions : List Question) (s : QuizSession) :
    Option Question × QuizSession :=
  if s.isComplete then (none, s)
  else if shouldTerminateEarly s then (none, completeQuiz questions s)
  else
    (questions.find?
      (fun q => !(s.responses.any (fun r => r.questionId == q.id))), s)

/-- `QuizEngine.getProgress` (lines 223-227). -/
def getProgress (s : QuizSession) : Int :=
  round (((s.responses.length : ℚ) / (MAXIMUM_QUESTIONS : ℚ)) * 100)

/-- One call to a state-changing public method of `QuizEngine`. -/
inductive Op where
  | getNext
  | answer (questionId answerId : String) (timestamp : Nat)
  | reset
deriving DecidableEq, Repr

/-- The state transition of one public call: a thrown `answerQuestion`
leaves the session unchanged (the TS method throws before mutating),
`reset` reinstalls `initializeSession` (QuizEngine.ts lines 166-168). -/
def step (questions : List Question) (s : QuizSession) : Op → QuizSession
  | .getNext => (getNextQuestion questions s).2
  | .answer q a t =>
    match answerQuestion questions s q a t with
    | .ok s' => s'
    | .error _ => s
  | .reset => initializeSession

/-- Runs a sequence of public calls from a state. -/
def runOps (questions : List Question) (s : QuizSession)
    (ops : List Op) : QuizSession :=
  ops.foldl (step questions) s

/-- Runs a sequence of `answerQuestion` calls, stopping at the first
thrown error. -/
def runAnswers (questions : List Question) (s : QuizSession) :
    List (String × String × Nat) → Except QuizError QuizSession
  | [] => .ok s
  | x :: rest => do
    let s' ← answerQuestion questions s x.1 x.2.1 x.2.2
    runAnswers questions s' rest

/-- A run in which every `answerQuestion` call names a question that is not
yet present in the response list at the moment of the call (the discipline
followed by any caller that only answers the question returned by
`getNextQuestion`). -/
def FreshRun (questions : List Question) : QuizSession → List Op → Prop
  | _, [] => True
  | s, op :: ops =>
    (∀ q a t, op = Op.answer q a t → ∀ r ∈ s.responses, r.questionId ≠ q) ∧
    FreshRun questions (step questions s op) ops

/-- A run during which no evaluation of `shouldTerminateEarly` returns
`true` before `MAXIMUM_QUESTIONS` responses are recorded.
`shouldTerminateEarly` is consulted (a) by `getNextQuestion` on a session
that is not complete — the first clause demands that call return `false` —
and (b) by a successful `answerQuestion` whose new response count is still
below the limit (the `||` short-circuits at the limit); there the call
returned `true` exactly when the resulting state is complete, so the second
clause demands a non-complete result. -/
def NoEarlyRun (questions : List Question) : QuizSession → List Op → Prop
  | _, [] => True
  | s, op :: ops =>
    (op = Op.getNext → s.isComplete = false → shouldTerminateEarly s = false) ∧
    (∀ q a t s', op = Op.answer q a t →
      answerQuestion questions s q a t = .ok s' →
      s'.responses.length < MAXIMUM_QUESTIONS → s'.isComplete = false) ∧
    NoEarlyRun questions (step questions s op) ops

/-- A session with the response timestamps erased: everything the
score/confidence/archetype computations can depend on. -/
structure ErasedSession where
  answered : List (String × String)
  currentScoreTF : Int
  currentScoreJP : Int
  isComplete : Bool
  archetype : Option Archetype
  confidence : Int
deriving DecidableEq, Repr

/-- Forgets the timestamps of a session. -/
def eraseSession (s : QuizSession) : ErasedSession :=
  { answered := s.responses.map (fun r => (r.questionId, r.answerId))
    currentScoreTF := s.currentScoreTF
    currentScoreJP := s.currentScoreJP
    isComplete := s.isComplete
    archetype := s.archetype
    confidence := s.confidence }

/-- Sum of the looked-up `scoreTF` weights of a response list, as the
summation loop of `calculateArchetype` computes it. -/
def lookupTotals (answerLookup : String → Option Answer)
    (responses : List QuizResponse) : Int × Int :=
  responses.foldl
    (fun t r =>
      match answerLookup r.answerId with
      | some a => (t.1 + a.scoreTF, t.2 + a.scoreJP)
      | none => t)
    (0, 0)

/-- A one-question bank whose single answer carries zero weight on both
dimensions; used as a concrete input for several witnesses. -/
def bankZero : List Question :=
  [{ id := "q1"
     text := "zero"
     answers := [{ id := "a1", text := "z", scoreTF := 0, scoreJP := 0 }] }]

/-- A one-question bank whose single answer carries weight `+2` on both
dimensions; used as a concrete input for several witnesses. -/
def bankTJ : List Question :=
  [{ id := "q1"
     text := "tj"
     answers := [{ id := "a1", text := "t", scoreTF := 2, scoreJP := 2 }] }]

/-! ### Concrete evaluations of the confidence estimator

`round` over `ℚ` does not reduce in the kernel, so the values of
`calculateConfidence` needed by concrete runs are established once here
and used as rewrite rules. -/

theorem calculateConfidence_zero_scores {k : Nat} (hk : 0 < k) (hk10 : k ≤ 10) :
    calculateConfidence 0 0 k = 3 * k := by
  unfold calculateConfidence
  rw [if_neg (by omega)]
  dsimp only
  have hr : ((k : ℚ) / 10) ≤ 1 := by
    rw [div_le_one (by norm_num)]
    exact_mod_cast hk10
  rw [min_eq_left hr]
  norm_num
  have h3 : ((k : ℚ) / 10) * (3/10) * 100 = ((3 * k : ℕ) : ℚ) := by
    push_cast
    ring
  rw [h3, round_natCast]
  push_cast
  ring

theorem cc_0_0_1 : calculateConfidence 0 0 1 = 3 := by
  unfold calculateConfidence; norm_num [min_def]

theorem cc_0_0_2 : calculateConfidence 0 0 2 = 6 := by
  unfold calculateConfidence; norm_num [min_def]

theorem cc_2_2_1 : calculateConfidence 2 2 1 = 73 := by
  unfold calculateConfidence; norm_num [min_def]

theorem cc_4_4_2 : calculateConfidence 4 4 2 = 76 := by
  unfold calculateConfidence; norm_num [min_def]

theorem cc_6_6_3 : calculateConfidence 6 6 3 = 79 := by
  unfold calculateConfidence; norm_num [min_def]

theorem cc_8_8_4 : calculateConfidence 8 8 4 = 82 := by
  unfold calculateConfidence; norm_num [min_def]

theorem cc_10_10_5 : calculateConfidence 10 10 5 = 85 := by
  unfold calculateConfidence; norm_num [min_def]

/-- The blended estimate lands in `[0,100]` whenever both factors are
probabilities. -/
theorem round_blend_range {b r : ℚ} (hb0 : 0 ≤ b) (hb1 : b ≤ 1)
    (hr0 : 0 ≤ r) (hr1 : r ≤ 1) :
    0 ≤ round ((b * (7/10) + r * (3/10)) * 100) ∧
      round ((b * (7/10) + r * (3/10)) * 100) ≤ 100 := by
  constructor
  · rw [round_eq]
    apply Int.floor_nonneg.mpr
    nlinarith
  · rw [round_eq]
    have h : (b * (7/10) + r * (3/10)) * 100 + 1/2 < (101 : ℚ) := by nlinarith
    have h2 : (⌊(b * (7/10) + r * (3/10)) * 100 + 1/2⌋ : ℤ) < 101 := by
      rw [Int.floor_lt]
      exact_mod_cast h
    omega

/-- C5: for every pair of integer totals and every response count, the
confidence estimator returns a value in `[0,100]`, with no assumption that
the weights lie in `[-2,2]`. -/
theorem calculateConfidence_range (scoreTF scoreJP : Int) (responseCount : Nat) :
    0 ≤ calculateConfidence scoreTF scoreJP responseCount ∧
      calculateConfidence scoreTF scoreJP responseCount ≤ 100 := by
  unfold calculateConfidence
  split
  · norm_num
  · dsimp only
    apply round_blend_range
    · apply le_min _ zero_le_one
      apply div_nonneg _ (by norm_num)
      apply div_nonneg _ (by positivity)
      positivity
    · exact min_le_right _ _
    · exact le_min (by positivity) zero_le_one
    · exact min_le_right _ _

/-- C2: the classifier returns `Neutral` exactly when both totals are
strictly inside the dead zone `|·| < 2`; otherwise it returns the quadrant
determined by the sign of each total, a total of `0` resolving to the
positive pole (`TJ`/`TP` for `0 ≤ scoreTF`, `TJ`/`FJ` for `0 ≤ scoreJP`).
Identical inputs yield identical labels because the classifier is a pure
function of the two totals. -/
theorem determineArchetype_spec (scoreTF scoreJP : Int) :
    determineArchetype scoreTF scoreJP =
      (if |scoreTF| < 2 ∧ |scoreJP| < 2 then Archetype.Neutral
       else if 0 ≤ scoreTF then
         (if 0 ≤ scoreJP then Archetype.TJ else Archetype.TP)
       else
         (if 0 ≤ scoreJP then Archetype.FJ else Archetype.FP)) ∧
    (determineArchetype scoreTF scoreJP = Archetype.Neutral ↔
      |scoreTF| < 2 ∧ |scoreJP| < 2) := by
  have h : determineArchetype scoreTF scoreJP =
      (if |scoreTF| < 2 ∧ |scoreJP| < 2 then Archetype.Neutral
       else if 0 ≤ scoreTF then
         (if 0 ≤ scoreJP then Archetype.TJ else Archetype.TP)
       else
         (if 0 ≤ scoreJP then Archetype.FJ else Archetype.FP)) := by
    unfold determineArchetype
    by_cases hN : |scoreTF| < 2 ∧ |scoreJP| < 2 <;>
      by_cases hA : 0 ≤ scoreTF <;>
      by_cases hB : 0 ≤ scoreJP <;>
      simp [hN, hA, hB]
  refine ⟨h, ?_⟩
  rw [h]
  by_cases hN : |scoreTF| < 2 ∧ |scoreJP| < 2 <;>
    by_cases hA : 0 ≤ scoreTF <;>
    by_cases hB : 0 ≤ scoreJP <;>
    simp [hN, hA, hB]

/-! ### Structural lemmas about the engine's transitions -/

theorem completeQuiz_responses (questions : List Question) (s : QuizSession) :
    (completeQuiz questions s).responses = s.responses := rfl

theorem completeQuiz_scoreTF (questions : List Question) (s : QuizSession) :
    (completeQuiz questions s).currentScoreTF = s.currentScoreTF := rfl

theorem completeQuiz_scoreJP (questions : List Question) (s : QuizSession) :
    (completeQuiz questions s).currentScoreJP = s.currentScoreJP := rfl

theorem completeQuiz_isComplete (questions : List Question) (s : QuizSession) :
    (completeQuiz questions s).isComplete = true := rfl

theorem completeQuiz_archetype (questions : List Question) (s : QuizSession) :
    (completeQuiz questions s).archetype =
      some (calculateArchetype s.responses (buildAnswerLookup questions)).archetype := rfl

theorem completeQuiz_confidence (questions : List Question) (s : QuizSession) :
    (completeQuiz questions s).confidence =
      (calculateArchetype s.responses (buildAnswerLookup questions)).confidence := rfl

/-- Full case analysis of a successful `answerQuestion` call: the session
was not complete, the question and answer were found, and the result is the
mid-state with the appended response and updated totals, completed when the
limit or the early-termination predicate fires. -/
theorem answerQuestion_ok_elim {questions : List Question} {s : QuizSession}
    {q a : String} {t : Nat} {s' : QuizSession}
    (h : answerQuestion questions s q a t = .ok s') :
    s.isComplete = false ∧
    ∃ question answer s1,
      questions.find? (fun x => x.id == q) = some question ∧
      question.answers.find? (fun x => x.id == a) = some answer ∧
      s1.responses = s.responses ++ [⟨q, a, t⟩] ∧
      s1.currentScoreTF = s.currentScoreTF + answer.scoreTF ∧
      s1.currentScoreJP = s.currentScoreJP + answer.scoreJP ∧
      s1.confidence =
        calculateConfidence s1.currentScoreTF s1.currentScoreJP
          s1.responses.length ∧
      s1.isComplete = s.isComplete ∧
      s1.archetype = s.archetype ∧
      ((MAXIMUM_QUESTIONS ≤ s1.responses.length ∨ shouldTerminateEarly s1 = true) ∧
          s' = completeQuiz questions s1 ∨
        ¬(MAXIMUM_QUESTIONS ≤ s1.responses.length ∨ shouldTerminateEarly s1 = true) ∧
          s' = s1) := by
  unfold answerQuestion at h
  split at h
  · exact absurd h (by simp)
  · rename_i hc
    refine ⟨by simpa using hc, ?_⟩
    split at h
    · exact absurd h (by simp)
    · rename_i question hq
      split at h
      · exact absurd h (by simp)
      · rename_i answer ha
        refine ⟨question, answer,
          ({ s with
            responses := s.responses ++ [(⟨q, a, t⟩ : QuizResponse)]
            currentScoreTF := s.currentScoreTF + answer.scoreTF
            currentScoreJP := s.currentScoreJP + answer.scoreJP
            confidence :=
              calculateConfidence (s.currentScoreTF + answer.scoreTF)
                (s.currentScoreJP + answer.scoreJP)
                (s.responses ++ [(⟨q, a, t⟩ : QuizResponse)]).length } : QuizSession),
          hq, ha, rfl, rfl, rfl, rfl, rfl, rfl, ?_⟩
        dsimp only at h
        split at h
        · rename_i hcond
          left
          refine ⟨?_, ?_⟩
          · simpa [Bool.or_eq_true, decide_eq_true_eq] using hcond
          · injection h with h
            exact h.symm
        · rename_i hcond
          right
          refine ⟨?_, ?_⟩
          · simpa [Bool.or_eq_true, decide_eq_true_eq] using hcond
          · injection h with h
            exact h.symm

theorem answerQuestion_ok_responses {questions : List Question}
    {s : QuizSession} {q a : String} {t : Nat} {s' : QuizSession}
    (h : answerQuestion questions s q a t = .ok s') :
    s'.responses = s.responses ++ [⟨q, a, t⟩] := by
  obtain ⟨-, _, _, s1, -, -, hres, -, -, -, -, -, hbr⟩ := answerQuestion_ok_elim h
  rcases hbr with ⟨-, rfl⟩ | ⟨-, rfl⟩
  · rw [completeQuiz_responses, hres]
  · exact hres

theorem step_reset (questions : List Question) (s : QuizSession) :
    step questions s .reset = initializeSession := rfl

theorem step_answer_of_error {questions : List Question} {s : QuizSession}
    {q a : String} {t : Nat} {e : QuizError}
    (h : answerQuestion questions s q a t = .error e) :
    step questions s (.answer q a t) = s := by
  simp [step, h]

theorem step_answer_of_ok {questions : List Question} {s : QuizSession}
    {q a : String} {t : Nat} {s' : QuizSession}
    (h : answerQuestion questions s q a t = .ok s') :
    step questions s (.answer q a t) = s' := by
  simp [step, h]

theorem step_getNext_of_complete {questions : List Question} {s : QuizSession}
    (h : s.isComplete = true) : step questions s .getNext = s := by
  simp [step, getNextQuestion, h]

theorem step_getNext_of_quiet {questions : List Question} {s : QuizSession}
    (h : s.isComplete = false) (ht : shouldTerminateEarly s = false) :
    step questions s .getNext = s := by
  simp [step, getNextQuestion, h, ht]

theorem step_getNext_of_early {questions : List Question} {s : QuizSession}
    (h : s.isComplete = false) (ht : shouldTerminateEarly s = true) :
    step questions s .getNext = completeQuiz questions s := by
  simp [step, getNextQuestion, h, ht]

/-- A completed session is frozen: `getNextQuestion` returns it untouched
and `answerQuestion` throws without mutating. -/
theorem step_of_complete {questions : List Question} {s : QuizSession}
    (h : s.isComplete = true) :
    ∀ op, op ≠ Op.reset → step questions s op = s := by
  intro op hop
  cases op with
  | getNext => exact step_getNext_of_complete h
  | answer q a t =>
    apply step_answer_of_error
    unfold answerQuestion
    rw [if_pos h]
  | reset => exact absurd rfl hop

/-- C4: `answerQuestion` throws `SessionAlreadyCompleteError` exactly on a
completed session; `InvalidQuestionError` exactly when (not complete and)
no question in the bank carries the id; `InvalidAnswerError` exactly when
(not complete, the question is found, and) none of that question's answers
carries the answer id; and every thrown call leaves the session state
unchanged. -/
theorem answerQuestion_error_spec (questions : List Question) (s : QuizSession)
    (questionId answerId : String) (timestamp : Nat) :
    (answerQuestion questions s questionId answerId timestamp =
        .error .sessionAlreadyComplete ↔ s.isComplete = true) ∧
    (answerQuestion questions s questionId answerId timestamp =
        .error (.invalidQuestion questionId) ↔
      s.isComplete = false ∧ ∀ q ∈ questions, q.id ≠ questionId) ∧
    (answerQuestion questions s questionId answerId timestamp =
        .error (.invalidAnswer questionId answerId) ↔
      s.isComplete = false ∧ ∃ question,
        questions.find? (fun q => q.id == questionId) = some question ∧
        ∀ a ∈ question.answers, a.id ≠ answerId) ∧
    (∀ e, answerQuestion questions s questionId answerId timestamp = .error e →
      step questions s (Op.answer questionId answerId timestamp) = s) := by
  rcases hc : s.isComplete with - | -
  · rcases hfq : questions.find? (fun q => q.id == questionId) with - | question
    · have hval : answerQuestion questions s questionId answerId timestamp =
          .error (.invalidQuestion questionId) := by
        unfold answerQuestion
        rw [hc, hfq]
        rfl
      have hforall : ∀ q ∈ questions, q.id ≠ questionId := by
        rw [List.find?_eq_none] at hfq
        intro q hq
        simpa using hfq q hq
      refine ⟨by simp [hval], ?_, ?_, fun e h => step_answer_of_error h⟩
      · rw [hval]
        exact iff_of_true rfl ⟨rfl, hforall⟩
      · rw [hval]
        apply iff_of_false
        · intro h
          cases h
        · rintro ⟨-, question, hsome, -⟩
          rw [hfq] at hsome
          cases hsome
    · have hqmem := List.mem_of_find?_eq_some hfq
      have hqid : question.id = questionId := by
        simpa using List.find?_some hfq
      rcases hfa : question.answers.find? (fun x => x.id == answerId) with - | answer
      · have hval : answerQuestion questions s questionId answerId timestamp =
            .error (.invalidAnswer questionId answerId) := by
          unfold answerQuestion
          simp only [hc, Bool.false_eq_true, if_false, hfq, hfa]
        have hnone : ∀ x ∈ question.answers, x.id ≠ answerId := by
          rw [List.find?_eq_none] at hfa
          intro x hx
          simpa using hfa x hx
        refine ⟨by simp [hval], ?_, ?_, fun e h => step_answer_of_error h⟩
        · rw [hval]
          apply iff_of_false
          · intro h
            cases h
          · rintro ⟨-, hall⟩
            exact absurd hqid (hall question hqmem)
        · rw [hval]
          exact iff_of_true rfl ⟨rfl, question, hfq, hnone⟩
      · have haid : answer.id = answerId := by
          simpa using List.find?_some hfa
        have hamem := List.mem_of_find?_eq_some hfa
        have hok : ∃ s', answerQuestion questions s questionId answerId timestamp =
            .ok s' := by
          unfold answerQuestion
          simp only [hc, Bool.false_eq_true, if_false, hfq, hfa]
          split
          · exact ⟨_, rfl⟩
          · exact ⟨_, rfl⟩
        obtain ⟨s', hval⟩ := hok
        refine ⟨by simp [hval, hc], ?_, ?_, fun e h => step_answer_of_error h⟩
        · rw [hval]
          apply iff_of_false
          · intro h
            cases h
          · rintro ⟨-, hall⟩
            exact absurd hqid (hall question hqmem)
        · rw [hval]
          apply iff_of_false
          · intro h
            cases h
          · rintro ⟨-, question', hq', hall⟩
            rw [hfq] at hq'
            injection hq' with hq'
            subst hq'
            exact absurd haid (hall answer hamem)
  · have hval : answerQuestion questions s questionId answerId timestamp =
        .error .sessionAlreadyComplete := by
      unfold answerQuestion
      rw [hc]
      rfl
    refine ⟨by simp [hval], by simp [hval], by simp [hval],
      fun e h => step_answer_of_error h⟩

/-- The element returned by `List.find?` is the first satisfying one: the
list splits at it and everything earlier fails the test. -/
theorem find?_decomp {α : Type} (p : α → Bool) :
    ∀ (l : List α) (x : α), l.find? p = some x →
      ∃ l1 l2, l = l1 ++ x :: l2 ∧ p x = true ∧ ∀ y ∈ l1, p y = false := by
  intro l
  induction l with
  | nil => intro x h; simp [List.find?] at h
  | cons a l ih =>
    intro x h
    rcases hpa : p a with - | -
    · rw [List.find?_cons_of_neg _ (by simp [hpa])] at h
      obtain ⟨l1, l2, rfl, hx, hall⟩ := ih x h
      refine ⟨a :: l1, l2, rfl, hx, ?_⟩
      intro y hy
      rcases List.mem_cons.mp hy with rfl | hy
      · exact hpa
      · exact hall y hy
    · rw [List.find?_cons_of_pos _ hpa] at h
      injection h with h
      subst h
      exact ⟨[], l, rfl, hpa, by simp⟩

/-- C7: on a session that is neither complete nor eligible for early
termination, `getNextQuestion` leaves the state untouched and returns the
first question, in the bank's original order, whose id has not been
answered; it returns `none` exactly when every question in the bank has
been answered. -/
theorem getNextQuestion_spec (questions : List Question) (s : QuizSession)
    (hc : s.isComplete = false) (ht : shouldTerminateEarly s = false) :
    (getNextQuestion questions s).2 = s ∧
    ((getNextQuestion questions s).1 = none ↔
      ∀ q ∈ questions, ∃ r ∈ s.responses, r.questionId = q.id) ∧
    (∀ q, (getNextQuestion questions s).1 = some q →
      (∀ r ∈ s.responses, r.questionId ≠ q.id) ∧
      ∃ l1 l2, questions = l1 ++ q :: l2 ∧
        ∀ q' ∈ l1, ∃ r ∈ s.responses, r.questionId = q'.id) := by
  unfold getNextQuestion
  rw [hc]
  simp only [Bool.false_eq_true, if_false, ht]
  refine ⟨trivial, ?_, ?_⟩
  · rw [List.find?_eq_none]
    constructor
    · intro h q hq
      have := h q hq
      simpa using this
    · intro h q hq
      simpa using h q hq
  · intro q hq
    obtain ⟨l1, l2, heq, hpx, hall⟩ := find?_decomp _ questions q hq
    constructor
    · simpa using hpx
    · refine ⟨l1, l2, heq, ?_⟩
      intro q' hq'
      have := hall q' hq'
      simpa using this

/-- Witness for C7 at a concrete bank and the empty session. -/
theorem getNextQuestion_spec_witness :
    (getNextQuestion bankZero initializeSession).2 = initializeSession :=
  (getNextQuestion_spec bankZero initializeSession rfl rfl).1

/-- Witness for C4: a rejected call on a concrete bank leaves the concrete
session unchanged. -/
theorem answerQuestion_error_spec_witness :
    step [] initializeSession (Op.answer "qX" "aX" 0) = initializeSession :=
  (answerQuestion_error_spec [] initializeSession "qX" "aX" 0).2.2.2
    (QuizError.invalidQuestion "qX") rfl

theorem step_getNext_responses (questions : List Question) (s : QuizSession) :
    (step questions s .getNext).responses = s.responses := by
  rcases hc : s.isComplete with - | -
  · rcases ht : shouldTerminateEarly s with - | -
    · rw [step_getNext_of_quiet hc ht]
    · rw [step_getNext_of_early hc ht, completeQuiz_responses]
  · rw [step_getNext_of_complete hc]

/-- C3 counterexample: `answerQuestion` accepts a question id that has
already been answered, so two calls naming the same question yield a
reachable state whose response list mentions `q1` twice. -/
theorem duplicate_responses_reachable :
    ¬ ((runOps bankZero initializeSession
        [Op.answer "q1" "a1" 0, Op.answer "q1" "a1" 1]).responses.map
          QuizResponse.questionId).Nodup := by
  simp [runOps, step, answerQuestion, bankZero, initializeSession, List.find?,
    shouldTerminateEarly, MINIMUM_QUESTIONS, MAXIMUM_QUESTIONS,
    CONFIDENCE_THRESHOLD, cc_0_0_1, cc_0_0_2]

theorem freshRun_nodup_aux (questions : List Question) : ∀ (ops : List Op)
    (s : QuizSession),
    (s.responses.map QuizResponse.questionId).Nodup →
    FreshRun questions s ops →
    ((runOps questions s ops).responses.map QuizResponse.questionId).Nodup := by
  intro ops
  induction ops with
  | nil => exact fun s h _ => h
  | cons op rest ih =>
    intro s h hfr
    obtain ⟨hf, hfr'⟩ := hfr
    show ((runOps questions (step questions s op) rest).responses.map
      QuizResponse.questionId).Nodup
    apply ih _ _ hfr'
    cases op with
    | getNext =>
      rw [step_getNext_responses]
      exact h
    | reset =>
      simp [step_reset, initializeSession]
    | answer q a t =>
      rcases hres : answerQuestion questions s q a t with e | s'
      · rw [step_answer_of_error hres]
        exact h
      · rw [step_answer_of_ok hres, answerQuestion_ok_responses hres]
        have hq : ∀ r ∈ s.responses, r.questionId ≠ q := hf q a t rfl
        simp only [List.map_append, List.map_cons, List.map_nil]
        apply List.nodup_append.mpr
        refine ⟨h, List.nodup_singleton _, ?_⟩
        intro x hx hx2
        rw [List.mem_singleton] at hx2
        subst hx2
        rw [List.mem_map] at hx
        obtain ⟨r, hr, hrq⟩ := hx
        exact hq r hr hrq

/-- C3 (amended): in every state reached by a run whose `answerQuestion`
calls each name a question id not yet present in the response list — the
discipline enforced by driving the session through `getNextQuestion` — the
response list holds at most one response per question id.  (The engine
itself does not enforce this: see `duplicate_responses_reachable`.) -/
theorem responses_unique_of_fresh (questions : List Question) (ops : List Op)
    (hfr : FreshRun questions initializeSession ops) :
    ((runOps questions initializeSession ops).responses.map
      QuizResponse.questionId).Nodup :=
  freshRun_nodup_aux questions ops initializeSession (by simp [initializeSession]) hfr

/-- Witness for the amended C3 at a concrete bank and one fresh answer. -/
theorem responses_unique_of_fresh_witness :
    ((runOps bankZero initializeSession [Op.answer "q1" "a1" 0]).responses.map
      QuizResponse.questionId).Nodup :=
  responses_unique_of_fresh bankZero [Op.answer "q1" "a1" 0]
    (by
      constructor
      · rintro q a t - r hr
        simp [initializeSession] at hr
      · exact trivial)

/-- One step preserves the counting invariant: never more than
`MAXIMUM_QUESTIONS` responses, and a session holding exactly
`MAXIMUM_QUESTIONS` responses is complete. -/
theorem step_bounded {questions : List Question} {s : QuizSession}
    (h1 : s.responses.length ≤ MAXIMUM_QUESTIONS)
    (h2 : s.responses.length = MAXIMUM_QUESTIONS → s.isComplete = true)
    (op : Op) :
    (step questions s op).responses.length ≤ MAXIMUM_QUESTIONS ∧
    ((step questions s op).responses.length = MAXIMUM_QUESTIONS →
      (step questions s op).isComplete = true) := by
  cases op with
  | reset =>
    rw [step_reset]
    simp [initializeSession, MAXIMUM_QUESTIONS]
  | getNext =>
    rcases hc : s.isComplete with - | -
    · rcases ht : shouldTerminateEarly s with - | -
      · rw [step_getNext_of_quiet hc ht]
        exact ⟨h1, fun hlen => absurd (h2 hlen) (by simp [hc])⟩
      · rw [step_getNext_of_early hc ht]
        exact ⟨by rw [completeQuiz_responses]; exact h1,
          fun _ => completeQuiz_isComplete questions s⟩
    · rw [step_getNext_of_complete hc]
      exact ⟨h1, fun _ => hc⟩
  | answer q a t =>
    rcases hres : answerQuestion questions s q a t with e | s'
    · rw [step_answer_of_error hres]
      exact ⟨h1, h2⟩
    · rw [step_answer_of_ok hres]
      obtain ⟨hc, -, -, s1, -, -, hres1, -, -, -, -, -, hbr⟩ :=
        answerQuestion_ok_elim hres
      have hlen : s.responses.length ≠ MAXIMUM_QUESTIONS := by
        intro hlen
        rw [h2 hlen] at hc
        cases hc
      have hlt : s.responses.length < MAXIMUM_QUESTIONS := lt_of_le_of_ne h1 hlen
      have hlen1 : s1.responses.length = s.responses.length + 1 := by
        rw [hres1]
        simp
      rcases hbr with ⟨-, rfl⟩ | ⟨hcond, rfl⟩
      · rw [completeQuiz_responses]
        exact ⟨by omega, fun _ => completeQuiz_isComplete questions s1⟩
      · rw [not_or] at hcond
        obtain ⟨hcond1, -⟩ := hcond
        refine ⟨by omega, fun hlen10 => absurd ?_ hcond1⟩
        omega

/-- Every reachable state satisfies the counting invariant. -/
theorem runOps_bounded (questions : List Question) : ∀ (ops : List Op)
    (s : QuizSession),
    s.responses.length ≤ MAXIMUM_QUESTIONS →
    (s.responses.length = MAXIMUM_QUESTIONS → s.isComplete = true) →
    (runOps questions s ops).responses.length ≤ MAXIMUM_QUESTIONS ∧
    ((runOps questions s ops).responses.length = MAXIMUM_QUESTIONS →
      (runOps questions s ops).isComplete = true) := by
  intro ops
  induction ops with
  | nil => exact fun s h1 h2 => ⟨h1, h2⟩
  | cons op rest ih =>
    intro s h1 h2
    show (runOps questions (step questions s op) rest).responses.length ≤ _ ∧ _
    obtain ⟨h1', h2'⟩ := step_bounded h1 h2 op
    exact ih _ h1' h2'

theorem round_tenth_times_hundred (k : Nat) :
    round (((k : ℚ) / 10) * 100) = 10 * k := by
  have h : ((k : ℚ) / 10) * 100 = ((10 * k : ℕ) : ℚ) := by
    push_cast
    ring
  rw [h, round_natCast]
  push_cast
  ring

/-- C9: in every reachable session state, `getProgress` returns
`round((responseCount / MAX_QUESTIONS) * 100)` — equivalently ten percent
per answered question — and never exceeds `100`. -/
theorem getProgress_spec (questions : List Question) (ops : List Op) :
    getProgress (runOps questions initializeSession ops) =
      round ((((runOps questions initializeSession ops).responses.length : ℚ) /
        (MAXIMUM_QUESTIONS : ℚ)) * 100) ∧
    getProgress (runOps questions initializeSession ops) =
      10 * ((runOps questions initializeSession ops).responses.length : ℤ) ∧
    getProgress (runOps questions initializeSession ops) ≤ 100 := by
  have hb := (runOps_bounded questions ops initializeSession
    (by simp [initializeSession, MAXIMUM_QUESTIONS])
    (by simp [initializeSession, MAXIMUM_QUESTIONS])).1
  have hval : getProgress (runOps questions initializeSession ops) =
      10 * ((runOps questions initializeSession ops).responses.length : ℤ) := by
    unfold getProgress
    rw [show (MAXIMUM_QUESTIONS : ℚ) = (10 : ℚ) from by norm_num [MAXIMUM_QUESTIONS]]
    rw [round_tenth_times_hundred]
  refine ⟨rfl, hval, ?_⟩
  rw [hval]
  have : ((runOps questions initializeSession ops).responses.length : ℤ) ≤ 10 := by
    exact_mod_cast hb
  omega

/-- One step of a run with no early termination preserves the invariant:
the response count never passes the limit, completion coincides with
reaching the limit, and a completed session carries the archetype the
classifier committed. -/
theorem noEarlyStep (questions : List Question) (s : QuizSession) (op : Op)
    (h1 : s.responses.length ≤ MAXIMUM_QUESTIONS)
    (h2 : s.isComplete = true ↔ s.responses.length = MAXIMUM_QUESTIONS)
    (h3 : s.isComplete = true → s.archetype =
      some (calculateArchetype s.responses (buildAnswerLookup questions)).archetype)
    (hg : op = Op.getNext → s.isComplete = false →
      shouldTerminateEarly s = false)
    (ha : ∀ q a t s', op = Op.answer q a t →
      answerQuestion questions s q a t = .ok s' →
      s'.responses.length < MAXIMUM_QUESTIONS → s'.isComplete = false) :
    (step questions s op).responses.length ≤ MAXIMUM_QUESTIONS ∧
    ((step questions s op).isComplete = true ↔
      (step questions s op).responses.length = MAXIMUM_QUESTIONS) ∧
    ((step questions s op).isComplete = true →
      (step questions s op).archetype =
        some (calculateArchetype (step questions s op).responses
          (buildAnswerLookup questions)).archetype) := by
  cases op with
  | reset =>
    rw [step_reset]
    refine ⟨by simp [initializeSession, MAXIMUM_QUESTIONS], ?_, ?_⟩
    · simp [initializeSession, MAXIMUM_QUESTIONS]
    · intro h
      simp [initializeSession] at h
  | getNext =>
    rcases hc : s.isComplete with - | -
    · rw [step_getNext_of_quiet hc (hg rfl hc)]
      exact ⟨h1, h2, h3⟩
    · rw [step_getNext_of_complete hc]
      exact ⟨h1, h2, h3⟩
  | answer q a t =>
    rcases hres : answerQuestion questions s q a t with e | s'
    · rw [step_answer_of_error hres]
      exact ⟨h1, h2, h3⟩
    · rw [step_answer_of_ok hres]
      obtain ⟨hc, -, -, s1, -, -, hres1, -, -, -, -, -, hbr⟩ :=
        answerQuestion_ok_elim hres
      have hlen : s.responses.length ≠ MAXIMUM_QUESTIONS := by
        intro hl
        rw [h2.mpr hl] at hc
        cases hc
      have hlt : s.responses.length < MAXIMUM_QUESTIONS :=
        lt_of_le_of_ne h1 hlen
      have hlen1 : s1.responses.length = s.responses.length + 1 := by
        rw [hres1]
        simp
      have hclause := ha q a t s' rfl hres
      rcases hbr with ⟨-, rfl⟩ | ⟨hcond, rfl⟩
      · have hfull : s1.responses.length = MAXIMUM_QUESTIONS := by
          by_contra hne10
          have hlt10 : (completeQuiz questions s1).responses.length <
              MAXIMUM_QUESTIONS := by
            rw [completeQuiz_responses]
            omega
          have := hclause hlt10
          rw [completeQuiz_isComplete] at this
          cases this
        refine ⟨by rw [completeQuiz_responses]; omega, ?_, ?_⟩
        · rw [completeQuiz_responses]
          exact iff_of_true (completeQuiz_isComplete questions s1) hfull
        · intro _
          rw [completeQuiz_archetype, completeQuiz_responses]
      · rw [not_or] at hcond
        obtain ⟨hcond1, -⟩ := hcond
        have hs1c : s'.isComplete = false := by
          apply hclause
          omega
        refine ⟨by omega, ?_, ?_⟩
        · refine iff_of_false (by rw [hs1c]; simp) (by omega)
        · intro hcontra
          rw [hs1c] at hcontra
          cases hcontra

/-- Invariant carried along a run with no early termination. -/
theorem noEarlyRun_aux (questions : List Question) : ∀ (ops : List Op)
    (s : QuizSession),
    s.responses.length ≤ MAXIMUM_QUESTIONS →
    (s.isComplete = true ↔ s.responses.length = MAXIMUM_QUESTIONS) →
    (s.isComplete = true → s.archetype =
      some (calculateArchetype s.responses (buildAnswerLookup questions)).archetype) →
    NoEarlyRun questions s ops →
    (runOps questions s ops).responses.length ≤ MAXIMUM_QUESTIONS ∧
    ((runOps questions s ops).isComplete = true ↔
      (runOps questions s ops).responses.length = MAXIMUM_QUESTIONS) ∧
    ((runOps questions s ops).isComplete = true →
      (runOps questions s ops).archetype =
        some (calculateArchetype (runOps questions s ops).responses
          (buildAnswerLookup questions)).archetype) := by
  intro ops
  induction ops with
  | nil => exact fun s h1 h2 h3 _ => ⟨h1, h2, h3⟩
  | cons op rest ih =>
    intro s h1 h2 h3 hne
    obtain ⟨hg, ha, hne'⟩ := hne
    show (runOps questions (step questions s op) rest).responses.length ≤ _ ∧ _
    have hstep := noEarlyStep questions s op h1 h2 h3 hg ha
    exact ih _ hstep.1 hstep.2.1 hstep.2.2 hne'

/-- C8: (a) in every reachable state the number of responses never exceeds
`MAXIMUM_QUESTIONS`; (b) for every run during which no consulted
`shouldTerminateEarly` evaluation returns `true` before the limit, the
session is complete exactly when the `MAXIMUM_QUESTIONS`-th response has
been recorded, and on completion the archetype committed is the one the
classifier computes from the accumulated responses (possibly `Neutral`). -/
theorem exhaustion_completion (questions : List Question) :
    (∀ ops : List Op,
      (runOps questions initializeSession ops).responses.length ≤
        MAXIMUM_QUESTIONS) ∧
    (∀ ops : List Op, NoEarlyRun questions initializeSession ops →
      ((runOps questions initializeSession ops).isComplete = true ↔
        (runOps questions initializeSession ops).responses.length =
          MAXIMUM_QUESTIONS) ∧
      ((runOps questions initializeSession ops).isComplete = true →
        (runOps questions initializeSession ops).archetype =
          some (calculateArchetype
            (runOps questions initializeSession ops).responses
            (buildAnswerLookup questions)).archetype)) := by
  constructor
  · intro ops
    exact (runOps_bounded questions ops initializeSession
      (by simp [initializeSession, MAXIMUM_QUESTIONS])
      (by simp [initializeSession, MAXIMUM_QUESTIONS])).1
  · intro ops hne
    have h := noEarlyRun_aux questions ops initializeSession
      (by simp [initializeSession, MAXIMUM_QUESTIONS])
      (by simp [initializeSession, MAXIMUM_QUESTIONS])
      (by intro h; simp [initializeSession] at h)
      hne
    exact ⟨h.2.1, h.2.2⟩

theorem answerQuestion_bankZero_first :
    answerQuestion bankZero initializeSession "q1" "a1" 0 =
      .ok { responses := [⟨"q1", "a1", 0⟩]
            currentScoreTF := 0
            currentScoreJP := 0
            isComplete := false
            archetype := none
            confidence := 3 } := by
  simp [answerQuestion, bankZero, initializeSession, List.find?,
    shouldTerminateEarly, MINIMUM_QUESTIONS, MAXIMUM_QUESTIONS, cc_0_0_1]

/-- Witness for C8 on a concrete one-answer run. -/
theorem exhaustion_completion_witness :
    (runOps bankZero initializeSession [Op.answer "q1" "a1" 0]).isComplete = true ↔
      (runOps bankZero initializeSession
        [Op.answer "q1" "a1" 0]).responses.length = MAXIMUM_QUESTIONS :=
  ((exhaustion_completion bankZero).2 [Op.answer "q1" "a1" 0]
    (by
      constructor
      · exact fun h => nomatch h
      constructor
      case right.right => exact trivial
      intro q a t s' heq hok hlen
      injection heq with hq ha ht
      subst hq
      subst ha
      subst ht
      rw [answerQuestion_bankZero_first] at hok
      injection hok with hok
      subst hok
      rfl)).1

/-- The overwriting lookup fold ignores answers whose id differs from the
key. -/
theorem foldl_lookup_skip :
    ∀ (l : List Answer) (key : String) (m : String → Option Answer),
      (∀ y ∈ l, y.id ≠ key) →
      l.foldl (fun lookup x => fun k => if k = x.id then some x else lookup k)
        m key = m key := by
  intro l
  induction l with
  | nil => intro key m _; rfl
  | cons x xs ih =>
    intro key m h
    have hx : x.id ≠ key := h x (by simp)
    rw [List.foldl_cons, ih key _ (fun y hy => h y (by simp [hy]))]
    exact if_neg (fun hk => hx hk.symm)

/-- With globally unique answer ids, the overwriting lookup fold finds each
member under its own id. -/
theorem foldl_lookup_mem :
    ∀ (l : List Answer) (m : String → Option Answer) (a : Answer),
      (l.map Answer.id).Nodup → a ∈ l →
      l.foldl (fun lookup x => fun k => if k = x.id then some x else lookup k)
        m a.id = some a := by
  intro l
  induction l with
  | nil => intro m a _ ha; cases ha
  | cons x xs ih =>
    intro m a hnd ha
    rw [List.map_cons, List.nodup_cons] at hnd
    obtain ⟨hx_notin, hnd'⟩ := hnd
    rw [List.foldl_cons]
    rcases List.mem_cons.mp ha with rfl | ha'
    · have hskip : ∀ y ∈ xs, y.id ≠ a.id := by
        intro y hy hcontra
        exact hx_notin (List.mem_map.mpr ⟨y, hy, hcontra⟩)
      rw [foldl_lookup_skip xs a.id _ hskip]
      simp
    · exact ih _ a hnd' ha'

/-- With answer ids unique across the whole bank, `buildAnswerLookup` maps
each answer's id back to that answer. -/
theorem buildAnswerLookup_of_nodup {questions : List Question}
    (hnd : ((questions.flatMap Question.answers).map Answer.id).Nodup)
    {question : Question} (hq : question ∈ questions)
    {answer : Answer} (ha : answer ∈ question.answers) :
    buildAnswerLookup questions answer.id = some answer :=
  foldl_lookup_mem _ _ _ hnd (List.mem_flatMap.mpr ⟨question, hq, ha⟩)

theorem lookupTotals_append (lk : String → Option Answer)
    (l : List QuizResponse) (r : QuizResponse) :
    lookupTotals lk (l ++ [r]) =
      match lk r.answerId with
      | some a =>
        ((lookupTotals lk l).1 + a.scoreTF, (lookupTotals lk l).2 + a.scoreJP)
      | none => lookupTotals lk l := by
  unfold lookupTotals
  rw [List.foldl_append]
  rcases h : lk r.answerId with - | a <;> simp [h]

/-- On a non-empty response list `calculateArchetype` is the record built
from the looked-up totals. -/
theorem calculateArchetype_of_ne_nil {responses : List QuizResponse}
    (lk : String → Option Answer) (h : ¬responses.length = 0) :
    calculateArchetype responses lk =
      { archetype := determineArchetype (lookupTotals lk responses).1
          (lookupTotals lk responses).2
        confidence := calculateConfidence (lookupTotals lk responses).1
          (lookupTotals lk responses).2 responses.length
        scoreTF := (lookupTotals lk responses).1
        scoreJP := (lookupTotals lk responses).2
        explanation := ARCHETYPE_DESCRIPTIONS
          (determineArchetype (lookupTotals lk responses).1
            (lookupTotals lk responses).2) } := by
  unfold calculateArchetype
  rw [if_neg h]
  rfl

theorem shouldTerminateEarly_min_length {s : QuizSession}
    (h : shouldTerminateEarly s = true) :
    MINIMUM_QUESTIONS ≤ s.responses.length := by
  unfold shouldTerminateEarly at h
  split at h
  · cases h
  · rename_i hlt
    omega

/-- One step preserves the agreement between the incrementally accumulated
totals and the totals recomputed from the response list through the answer
lookup, given unique answer ids; on completion the committed archetype is
the classifier applied to the accumulated totals. -/
theorem refines_step (questions : List Question)
    (hnd : ((questions.flatMap Question.answers).map Answer.id).Nodup)
    (s : QuizSession) (op : Op)
    (h1 : lookupTotals (buildAnswerLookup questions) s.responses =
      (s.currentScoreTF, s.currentScoreJP))
    (h2 : s.isComplete = true →
      s.archetype = some (determineArchetype s.currentScoreTF s.currentScoreJP) ∧
      ¬s.responses.length = 0) :
    lookupTotals (buildAnswerLookup questions) (step questions s op).responses =
      ((step questions s op).currentScoreTF,
        (step questions s op).currentScoreJP) ∧
    ((step questions s op).isComplete = true →
      (step questions s op).archetype =
        some (determineArchetype (step questions s op).currentScoreTF
          (step questions s op).currentScoreJP) ∧
      ¬(step questions s op).responses.length = 0) := by
  cases op with
  | reset =>
    rw [step_reset]
    exact ⟨rfl, fun h => nomatch h⟩
  | getNext =>
    rcases hc : s.isComplete with - | -
    · rcases ht : shouldTerminateEarly s with - | -
      · rw [step_getNext_of_quiet hc ht]
        exact ⟨h1, h2⟩
      · rw [step_getNext_of_early hc ht]
        have hne : ¬s.responses.length = 0 := by
          have h5 : 5 ≤ s.responses.length := shouldTerminateEarly_min_length ht
          omega
        refine ⟨?_, fun _ => ⟨?_, ?_⟩⟩
        · rw [completeQuiz_responses, completeQuiz_scoreTF, completeQuiz_scoreJP]
          exact h1
        · rw [completeQuiz_archetype, completeQuiz_scoreTF, completeQuiz_scoreJP,
            calculateArchetype_of_ne_nil _ hne, h1]
        · rw [completeQuiz_responses]
          exact hne
    · rw [step_getNext_of_complete hc]
      exact ⟨h1, h2⟩
  | answer q a t =>
    rcases hres : answerQuestion questions s q a t with e | s'
    · rw [step_answer_of_error hres]
      exact ⟨h1, h2⟩
    · rw [step_answer_of_ok hres]
      obtain ⟨hc, question, answer, s1, hfq, hfa, hres1, hTF, hJP, -, hs1c, -, hbr⟩ :=
        answerQuestion_ok_elim hres
      have hqmem : question ∈ questions := List.mem_of_find?_eq_some hfq
      have hamem : answer ∈ question.answers := List.mem_of_find?_eq_some hfa
      have haid : answer.id = a := by
        simpa using List.find?_some hfa
      have hlk : buildAnswerLookup questions a = some answer := by
        rw [← haid]
        exact buildAnswerLookup_of_nodup hnd hqmem hamem
      have h1' : lookupTotals (buildAnswerLookup questions) s1.responses =
          (s1.currentScoreTF, s1.currentScoreJP) := by
        rw [hres1, lookupTotals_append]
        show (match buildAnswerLookup questions a with
          | some x => (_, _)
          | none => _) = _
        rw [hlk, h1, hTF, hJP]
      have hlen1 : ¬s1.responses.length = 0 := by
        rw [hres1]
        simp
      rcases hbr with ⟨-, rfl⟩ | ⟨-, rfl⟩
      · refine ⟨?_, fun _ => ⟨?_, ?_⟩⟩
        · rw [completeQuiz_responses, completeQuiz_scoreTF, completeQuiz_scoreJP]
          exact h1'
        · rw [completeQuiz_archetype, completeQuiz_scoreTF, completeQuiz_scoreJP,
            calculateArchetype_of_ne_nil _ hlen1, h1']
        · rw [completeQuiz_responses]
          exact hlen1
      · refine ⟨h1', fun hcomp => ?_⟩
        rw [hs1c, hc] at hcomp
        cases hcomp

/-- The totals/archetype agreement holds in every reachable state. -/
theorem refines_aux (questions : List Question)
    (hnd : ((questions.flatMap Question.answers).map Answer.id).Nodup) :
    ∀ (ops : List Op) (s : QuizSession),
    lookupTotals (buildAnswerLookup questions) s.responses =
      (s.currentScoreTF, s.currentScoreJP) →
    (s.isComplete = true →
      s.archetype = some (determineArchetype s.currentScoreTF s.currentScoreJP) ∧
      ¬s.responses.length = 0) →
    lookupTotals (buildAnswerLookup questions)
        (runOps questions s ops).responses =
      ((runOps questions s ops).currentScoreTF,
        (runOps questions s ops).currentScoreJP) ∧
    ((runOps questions s ops).isComplete = true →
      (runOps questions s ops).archetype =
        some (determineArchetype (runOps questions s ops).currentScoreTF
          (runOps questions s ops).currentScoreJP) ∧
      ¬(runOps questions s ops).responses.length = 0) := by
  intro ops
  induction ops with
  | nil => exact fun s h1 h2 => ⟨h1, h2⟩
  | cons op rest ih =>
    intro s h1 h2
    show lookupTotals _ (runOps questions (step questions s op) rest).responses = _ ∧ _
    have hstep := refines_step questions hnd s op h1 h2
    exact ih _ hstep.1 hstep.2

/-- C10: with answer ids unique across the bank, in every reachable
completed state the result recomputed by `calculateArchetype` from the
response list agrees with the incrementally accumulated totals, and the
committed archetype is the classifier applied to those totals. -/
theorem completion_refines_accumulated (questions : List Question)
    (ops : List Op)
    (hnd : ((questions.flatMap Question.answers).map Answer.id).Nodup)
    (hc : (runOps questions initializeSession ops).isComplete = true) :
    (calculateArchetype (runOps questions initializeSession ops).responses
        (buildAnswerLookup questions)).scoreTF =
      (runOps questions initializeSession ops).currentScoreTF ∧
    (calculateArchetype (runOps questions initializeSession ops).responses
        (buildAnswerLookup questions)).scoreJP =
      (runOps questions initializeSession ops).currentScoreJP ∧
    (runOps questions initializeSession ops).archetype =
      some (determineArchetype
        (runOps questions initializeSession ops).currentScoreTF
        (runOps questions initializeSession ops).currentScoreJP) := by
  obtain ⟨h1, h2⟩ := refines_aux questions hnd ops initializeSession rfl
    (fun h => nomatch h)
  obtain ⟨harch, hne⟩ := h2 hc
  rw [calculateArchetype_of_ne_nil _ hne, h1]
  exact ⟨rfl, rfl, harch⟩

theorem run5_bankTJ :
    runOps bankTJ initializeSession
      [Op.answer "q1" "a1" 0, Op.answer "q1" "a1" 1, Op.answer "q1" "a1" 2,
       Op.answer "q1" "a1" 3, Op.answer "q1" "a1" 4] =
      { responses := [⟨"q1","a1",0⟩, ⟨"q1","a1",1⟩, ⟨"q1","a1",2⟩,
                      ⟨"q1","a1",3⟩, ⟨"q1","a1",4⟩]
        currentScoreTF := 10
        currentScoreJP := 10
        isComplete := true
        archetype := some .TJ
        confidence := 85 } := by
  norm_num [runOps, step, answerQuestion, bankTJ, initializeSession, List.find?,
    shouldTerminateEarly, completeQuiz, calculateArchetype, buildAnswerLookup,
    determineArchetype, lookupTotals, MINIMUM_QUESTIONS, MAXIMUM_QUESTIONS,
    CONFIDENCE_THRESHOLD, cc_2_2_1, cc_4_4_2, cc_6_6_3, cc_8_8_4, cc_10_10_5]

/-- Witness for C10 on the concrete five-answer completed run. -/
theorem completion_refines_accumulated_witness :
    (runOps bankTJ initializeSession
      [Op.answer "q1" "a1" 0, Op.answer "q1" "a1" 1, Op.answer "q1" "a1" 2,
       Op.answer "q1" "a1" 3, Op.answer "q1" "a1" 4]).archetype =
      some (determineArchetype
        (runOps bankTJ initializeSession
          [Op.answer "q1" "a1" 0, Op.answer "q1" "a1" 1, Op.answer "q1" "a1" 2,
           Op.answer "q1" "a1" 3, Op.answer "q1" "a1" 4]).currentScoreTF
        (runOps bankTJ initializeSession
          [Op.answer "q1" "a1" 0, Op.answer "q1" "a1" 1, Op.answer "q1" "a1" 2,
           Op.answer "q1" "a1" 3, Op.answer "q1" "a1" 4]).currentScoreJP) :=
  (completion_refines_accumulated bankTJ
    [Op.answer "q1" "a1" 0, Op.answer "q1" "a1" 1, Op.answer "q1" "a1" 2,
     Op.answer "q1" "a1" 3, Op.answer "q1" "a1" 4]
    (by simp [bankTJ])
    (by rw [run5_bankTJ])).2.2

theorem runAnswers_cons_ok {questions : List Question} {s : QuizSession}
    {x : String × String × Nat} {rest : List (String × String × Nat)}
    {s' : QuizSession}
    (h : answerQuestion questions s x.1 x.2.1 x.2.2 = .ok s') :
    runAnswers questions s (x :: rest) = runAnswers questions s' rest := by
  show (answerQuestion questions s x.1 x.2.1 x.2.2 >>= fun s2 =>
    runAnswers questions s2 rest) = runAnswers questions s' rest
  rw [h]
  rfl

theorem runAnswers_cons_error {questions : List Question} {s : QuizSession}
    {x : String × String × Nat} {rest : List (String × String × Nat)}
    {e : QuizError}
    (h : answerQuestion questions s x.1 x.2.1 x.2.2 = .error e) :
    runAnswers questions s (x :: rest) = .error e := by
  show (answerQuestion questions s x.1 x.2.1 x.2.2 >>= fun s2 =>
    runAnswers questions s2 rest) = .error e
  rw [h]
  rfl

/-- The total-summing fold of `calculateArchetype` depends on a response
list only through its answer ids. -/
theorem foldl_totals_congr (lk : String → Option Answer) :
    ∀ (l1 l2 : List QuizResponse) (acc : Int × Int),
      l1.map QuizResponse.answerId = l2.map QuizResponse.answerId →
      l1.foldl (fun t r =>
        match lk r.answerId with
        | some a => (t.1 + a.scoreTF, t.2 + a.scoreJP)
        | none => t) acc =
      l2.foldl (fun t r =>
        match lk r.answerId with
        | some a => (t.1 + a.scoreTF, t.2 + a.scoreJP)
        | none => t) acc := by
  intro l1
  induction l1 with
  | nil =>
    intro l2 acc h
    cases l2 with
    | nil => rfl
    | cons y ys => simp at h
  | cons r rs ih =>
    intro l2 acc h
    cases l2 with
    | nil => simp at h
    | cons r2 rs2 =>
      simp only [List.map_cons, List.cons.injEq] at h
      obtain ⟨hh, ht⟩ := h
      rw [List.foldl_cons, List.foldl_cons]
      rcases hlk : lk r2.answerId with - | a2 <;>
        · simp only [hh, hlk]
          exact ih rs2 _ ht

/-- `calculateArchetype` depends on the response list only through its
answer ids (and its length). -/
theorem calculateArchetype_congr {l1 l2 : List QuizResponse}
    (lk : String → Option Answer)
    (hids : l1.map QuizResponse.answerId = l2.map QuizResponse.answerId) :
    calculateArchetype l1 lk = calculateArchetype l2 lk := by
  have hlen : l1.length = l2.length := by
    have h := congrArg List.length hids
    simpa using h
  unfold calculateArchetype
  rw [hlen, foldl_totals_congr lk l1 l2 (0, 0) hids]

/-- `answerQuestion` is insensitive to the timestamps already stored and to
the timestamp of the new response: on erase-equal states it throws the same
error or produces erase-equal states. -/
theorem answerQuestion_erase_congr {questions : List Question}
    {s s2 : QuizSession} (h : eraseSession s = eraseSession s2)
    (q a : String) (t t2 : Nat) :
    (∀ e, answerQuestion questions s q a t = .error e →
      answerQuestion questions s2 q a t2 = .error e) ∧
    (∀ u, answerQuestion questions s q a t = .ok u →
      ∃ u2, answerQuestion questions s2 q a t2 = .ok u2 ∧
        eraseSession u = eraseSession u2) := by
  have hans : s.responses.map (fun r => (r.questionId, r.answerId)) =
      s2.responses.map (fun r => (r.questionId, r.answerId)) :=
    congrArg ErasedSession.answered h
  have hTF : s.currentScoreTF = s2.currentScoreTF :=
    congrArg ErasedSession.currentScoreTF h
  have hJP : s.currentScoreJP = s2.currentScoreJP :=
    congrArg ErasedSession.currentScoreJP h
  have hcomp : s.isComplete = s2.isComplete :=
    congrArg ErasedSession.isComplete h
  have harch : s.archetype = s2.archetype :=
    congrArg ErasedSession.archetype h
  have hlen : s.responses.length = s2.responses.length := by
    have h2 := congrArg List.length hans
    simpa using h2
  rcases hc : s.isComplete with - | -
  · have hc2 : s2.isComplete = false := hcomp.symm.trans hc
    rcases hfq : questions.find? (fun z => z.id == q) with - | question
    · have hv1 : answerQuestion questions s q a t =
          .error (.invalidQuestion q) := by
        unfold answerQuestion
        rw [hc, hfq]
        rfl
      have hv2 : answerQuestion questions s2 q a t2 =
          .error (.invalidQuestion q) := by
        unfold answerQuestion
        rw [hc2, hfq]
        rfl
      constructor
      · intro e he
        rw [hv1] at he
        injection he with he
        rw [hv2, he]
      · intro u hu
        rw [hv1] at hu
        cases hu
    · rcases hfa : question.answers.find? (fun z => z.id == a) with - | answer
      · have hv1 : answerQuestion questions s q a t =
            .error (.invalidAnswer q a) := by
          unfold answerQuestion
          simp only [hc, Bool.false_eq_true, if_false, hfq, hfa]
        have hv2 : answerQuestion questions s2 q a t2 =
            .error (.invalidAnswer q a) := by
          unfold answerQuestion
          simp only [hc2, Bool.false_eq_true, if_false, hfq, hfa]
        constructor
        · intro e he
          rw [hv1] at he
          injection he with he
          rw [hv2, he]
        · intro u hu
          rw [hv1] at hu
          cases hu
      · have hv1 : answerQuestion questions s q a t =
            (if (decide (MAXIMUM_QUESTIONS ≤
                  (s.responses ++ [(⟨q, a, t⟩ : QuizResponse)]).length) ||
                shouldTerminateEarly
                  { s with
                    responses := s.responses ++ [(⟨q, a, t⟩ : QuizResponse)]
                    currentScoreTF := s.currentScoreTF + answer.scoreTF
                    currentScoreJP := s.currentScoreJP + answer.scoreJP
                    confidence := calculateConfidence
                      (s.currentScoreTF + answer.scoreTF)
                      (s.currentScoreJP + answer.scoreJP)
                      (s.responses ++ [(⟨q, a, t⟩ : QuizResponse)]).length }) = true
              then .ok (completeQuiz questions
                  { s with
                    responses := s.responses ++ [(⟨q, a, t⟩ : QuizResponse)]
                    currentScoreTF := s.currentScoreTF + answer.scoreTF
                    currentScoreJP := s.currentScoreJP + answer.scoreJP
                    confidence := calculateConfidence
                      (s.currentScoreTF + answer.scoreTF)
                      (s.currentScoreJP + answer.scoreJP)
                      (s.responses ++ [(⟨q, a, t⟩ : QuizResponse)]).length })
              else .ok
                  { s with
                    responses := s.responses ++ [(⟨q, a, t⟩ : QuizResponse)]
                    currentScoreTF := s.currentScoreTF + answer.scoreTF
                    currentScoreJP := s.currentScoreJP + answer.scoreJP
                    confidence := calculateConfidence
                      (s.currentScoreTF + answer.scoreTF)
                      (s.currentScoreJP + answer.scoreJP)
                      (s.responses ++ [(⟨q, a, t⟩ : QuizResponse)]).length }) := by
          unfold answerQuestion
          simp only [hc, Bool.false_eq_true, if_false, hfq, hfa]
        have hv2 : answerQuestion questions s2 q a t2 =
            (if (decide (MAXIMUM_QUESTIONS ≤
                  (s2.responses ++ [(⟨q, a, t2⟩ : QuizResponse)]).length) ||
                shouldTerminateEarly
                  { s2 with
                    responses := s2.responses ++ [(⟨q, a, t2⟩ : QuizResponse)]
                    currentScoreTF := s2.currentScoreTF + answer.scoreTF
                    currentScoreJP := s2.currentScoreJP + answer.scoreJP
                    confidence := calculateConfidence
                      (s2.currentScoreTF + answer.scoreTF)
                      (s2.currentScoreJP + answer.scoreJP)
                      (s2.responses ++ [(⟨q, a, t2⟩ : QuizResponse)]).length }) = true
              then .ok (completeQuiz questions
                  { s2 with
                    responses := s2.responses ++ [(⟨q, a, t2⟩ : QuizResponse)]
                    currentScoreTF := s2.currentScoreTF + answer.scoreTF
                    currentScoreJP := s2.currentScoreJP + answer.scoreJP
                    confidence := calculateConfidence
                      (s2.currentScoreTF + answer.scoreTF)
                      (s2.currentScoreJP + answer.scoreJP)
                      (s2.responses ++ [(⟨q, a, t2⟩ : QuizResponse)]).length })
              else .ok
                  { s2 with
                    responses := s2.responses ++ [(⟨q, a, t2⟩ : QuizResponse)]
                    currentScoreTF := s2.currentScoreTF + answer.scoreTF
                    currentScoreJP := s2.currentScoreJP + answer.scoreJP
                    confidence := calculateConfidence
                      (s2.currentScoreTF + answer.scoreTF)
                      (s2.currentScoreJP + answer.scoreJP)
                      (s2.responses ++ [(⟨q, a, t2⟩ : QuizResponse)]).length }) := by
          unfold answerQuestion
          simp only [hc2, Bool.false_eq_true, if_false, hfq, hfa]
        have hS : eraseSession
            { s with
              responses := s.responses ++ [(⟨q, a, t⟩ : QuizResponse)]
              currentScoreTF := s.currentScoreTF + answer.scoreTF
              currentScoreJP := s.currentScoreJP + answer.scoreJP
              confidence := calculateConfidence
                (s.currentScoreTF + answer.scoreTF)
                (s.currentScoreJP + answer.scoreJP)
                (s.responses ++ [(⟨q, a, t⟩ : QuizResponse)]).length } =
            eraseSession
            { s2 with
              responses := s2.responses ++ [(⟨q, a, t2⟩ : QuizResponse)]
              currentScoreTF := s2.currentScoreTF + answer.scoreTF
              currentScoreJP := s2.currentScoreJP + answer.scoreJP
              confidence := calculateConfidence
                (s2.currentScoreTF + answer.scoreTF)
                (s2.currentScoreJP + answer.scoreJP)
                (s2.responses ++ [(⟨q, a, t2⟩ : QuizResponse)]).length } := by
          simp only [eraseSession, List.map_append, List.map_cons, List.map_nil,
            List.length_append, List.length_cons, List.length_nil]
          rw [hans, hTF, hJP, hcomp, harch, hlen]
        have hcond : (decide (MAXIMUM_QUESTIONS ≤
              (s.responses ++ [(⟨q, a, t⟩ : QuizResponse)]).length) ||
            shouldTerminateEarly
              { s with
                responses := s.responses ++ [(⟨q, a, t⟩ : QuizResponse)]
                currentScoreTF := s.currentScoreTF + answer.scoreTF
                currentScoreJP := s.currentScoreJP + answer.scoreJP
                confidence := calculateConfidence
                  (s.currentScoreTF + answer.scoreTF)
                  (s.currentScoreJP + answer.scoreJP)
                  (s.responses ++ [(⟨q, a, t⟩ : QuizResponse)]).length }) =
            (decide (MAXIMUM_QUESTIONS ≤
              (s2.responses ++ [(⟨q, a, t2⟩ : QuizResponse)]).length) ||
            shouldTerminateEarly
              { s2 with
                responses := s2.responses ++ [(⟨q, a, t2⟩ : QuizResponse)]
                currentScoreTF := s2.currentScoreTF + answer.scoreTF
                currentScoreJP := s2.currentScoreJP + answer.scoreJP
                confidence := calculateConfidence
                  (s2.currentScoreTF + answer.scoreTF)
                  (s2.currentScoreJP + answer.scoreJP)
                  (s2.responses ++ [(⟨q, a, t2⟩ : QuizResponse)]).length }) := by
          unfold shouldTerminateEarly
          simp only [List.length_append, List.length_cons, List.length_nil]
          rw [hTF, hJP, hlen]
        have hmapS : (s.responses ++ [(⟨q, a, t⟩ : QuizResponse)]).map
              QuizResponse.answerId =
            (s2.responses ++ [(⟨q, a, t2⟩ : QuizResponse)]).map
              QuizResponse.answerId := by
          have haid : s.responses.map QuizResponse.answerId =
              s2.responses.map QuizResponse.answerId := by
            have h2 := congrArg (List.map Prod.snd) hans
            simpa [List.map_map, Function.comp] using h2
          simp only [List.map_append, List.map_cons, List.map_nil]
          rw [haid]
        have hr : calculateArchetype
              (s.responses ++ [(⟨q, a, t⟩ : QuizResponse)])
              (buildAnswerLookup questions) =
            calculateArchetype
              (s2.responses ++ [(⟨q, a, t2⟩ : QuizResponse)])
              (buildAnswerLookup questions) :=
          calculateArchetype_congr _ hmapS
        constructor
        · intro e he
          rw [hv1] at he
          rcases hcase : (decide (MAXIMUM_QUESTIONS ≤
              (s.responses ++ [(⟨q, a, t⟩ : QuizResponse)]).length) ||
            shouldTerminateEarly _) with - | -
          all_goals rw [hcase] at he
          all_goals simp at he
        · intro u hu
          rw [hv1] at hu
          rw [hv2, ← hcond]
          rcases hcase : (decide (MAXIMUM_QUESTIONS ≤
              (s.responses ++ [(⟨q, a, t⟩ : QuizResponse)]).length) ||
            shouldTerminateEarly
              { s with
                responses := s.responses ++ [(⟨q, a, t⟩ : QuizResponse)]
                currentScoreTF := s.currentScoreTF + answer.scoreTF
                currentScoreJP := s.currentScoreJP + answer.scoreJP
                confidence := calculateConfidence
                  (s.currentScoreTF + answer.scoreTF)
                  (s.currentScoreJP + answer.scoreJP)
                  (s.responses ++ [(⟨q, a, t⟩ : QuizResponse)]).length }) with - | -
          · rw [hcase] at hu
            simp only [Bool.false_eq_true, if_false] at hu ⊢
            injection hu with hu
            refine ⟨_, rfl, ?_⟩
            rw [← hu]
            exact hS
          · rw [hcase] at hu
            simp only [if_true] at hu ⊢
            injection hu with hu
            refine ⟨_, rfl, ?_⟩
            rw [← hu]
            simp only [completeQuiz, eraseSession]
            rw [hr]
            simp only [List.map_append, List.map_cons, List.map_nil]
            rw [hans, hTF, hJP]
  · have hc2 : s2.isComplete = true := hcomp.symm.trans hc
    have hv1 : answerQuestion questions s q a t =
        .error .sessionAlreadyComplete := by
      unfold answerQuestion
      rw [hc]
      rfl
    have hv2 : answerQuestion questions s2 q a t2 =
        .error .sessionAlreadyComplete := by
      unfold answerQuestion
      rw [hc2]
      rfl
    constructor
    · intro e he
      rw [hv1] at he
      injection he with he
      rw [hv2, he]
    · intro u hu
      rw [hv1] at hu
      cases hu

/-- Lifting of `answerQuestion_erase_congr` to accepted call sequences with
the same `(questionId, answerId)` projection. -/
theorem runAnswers_erase_congr {questions : List Question} :
    ∀ (tr tr2 : List (String × String × Nat)) (s s2 : QuizSession),
      eraseSession s = eraseSession s2 →
      tr.map (fun x => (x.1, x.2.1)) = tr2.map (fun x => (x.1, x.2.1)) →
      ∀ u, runAnswers questions s tr = .ok u →
        ∃ u2, runAnswers questions s2 tr2 = .ok u2 ∧
          eraseSession u = eraseSession u2 := by
  intro tr
  induction tr with
  | nil =>
    intro tr2 s s2 hs htr u hu
    cases tr2 with
    | nil =>
      injection hu with hu
      exact ⟨s2, rfl, hu ▸ hs⟩
    | cons y ys => simp at htr
  | cons x xs ih =>
    intro tr2 s s2 hs htr u hu
    cases tr2 with
    | nil => simp at htr
    | cons y ys =>
      simp only [List.map_cons, List.cons.injEq] at htr
      obtain ⟨hxy, hrest⟩ := htr
      obtain ⟨hq, ha⟩ : x.1 = y.1 ∧ x.2.1 = y.2.1 := by
        injection hxy with h1 h2
        exact ⟨h1, h2⟩
      rcases hres : answerQuestion questions s x.1 x.2.1 x.2.2 with e | s'
      · rw [runAnswers_cons_error hres] at hu
        cases hu
      · rw [runAnswers_cons_ok hres] at hu
        obtain ⟨s2', hres2, hs'⟩ :=
          (answerQuestion_erase_congr hs x.1 x.2.1 x.2.2 y.2.2).2 s' hres
        rw [hq, ha] at hres2
        obtain ⟨u2, hu2, hu'⟩ := ih ys s' s2' hs' hrest u hu
        refine ⟨u2, ?_, hu'⟩
        rw [runAnswers_cons_ok hres2]
        exact hu2

/-- C6: if a sequence of `(questionId, answerId, timestamp)` calls is
accepted from the initial state, then after `reset()` replaying the same
`(questionId, answerId)` pairs — under arbitrary new timestamps — is
accepted as well and produces identical `currentScoreTF`, `currentScoreJP`,
`confidence` and `archetype`. -/
theorem replay_deterministic (questions : List Question)
    (tr tr2 : List (String × String × Nat)) (sAny s1 : QuizSession)
    (hpairs : tr.map (fun x => (x.1, x.2.1)) = tr2.map (fun x => (x.1, x.2.1)))
    (h1 : runAnswers questions initializeSession tr = .ok s1) :
    ∃ s2, runAnswers questions (step questions sAny Op.reset) tr2 = .ok s2 ∧
      s2.currentScoreTF = s1.currentScoreTF ∧
      s2.currentScoreJP = s1.currentScoreJP ∧
      s2.confidence = s1.confidence ∧
      s2.archetype = s1.archetype := by
  rw [step_reset]
  obtain ⟨s2, h2, he⟩ := runAnswers_erase_congr tr tr2 initializeSession
    initializeSession rfl hpairs s1 h1
  exact ⟨s2, h2,
    (congrArg ErasedSession.currentScoreTF he).symm,
    (congrArg ErasedSession.currentScoreJP he).symm,
    (congrArg ErasedSession.confidence he).symm,
    (congrArg ErasedSession.archetype he).symm⟩

theorem answerQuestion_bankZero_any (t : Nat) :
    answerQuestion bankZero initializeSession "q1" "a1" t =
      .ok { responses := [⟨"q1", "a1", t⟩]
            currentScoreTF := 0
            currentScoreJP := 0
            isComplete := false
            archetype := none
            confidence := 3 } := by
  simp [answerQuestion, bankZero, initializeSession, List.find?,
    shouldTerminateEarly, MINIMUM_QUESTIONS, MAXIMUM_QUESTIONS, cc_0_0_1]

/-- Witness for C6: a one-call run with timestamp 5, reset, replayed with
timestamp 99. -/
theorem replay_deterministic_witness :
    ∃ s2, runAnswers bankZero (step bankZero initializeSession Op.reset)
        [("q1", "a1", 99)] = .ok s2 ∧
      s2.currentScoreTF = 0 ∧ s2.currentScoreJP = 0 ∧
      s2.confidence = 3 ∧ s2.archetype = none :=
  replay_deterministic bankZero [("q1", "a1", 5)] [("q1", "a1", 99)]
    initializeSession _ rfl
    (by
      rw [runAnswers_cons_ok (answerQuestion_bankZero_any 5)]
      exact rfl)

theorem determineArchetype_ten_ten : determineArchetype 10 10 = Archetype.TJ := by
  unfold determineArchetype
  norm_num

/-- C1: from the initial state, any five accepted answers each carrying
weight `+2` on both dimensions (both at the question where they are looked
up during accumulation and in the bank-wide lookup used at completion)
drive the totals to `(10, 10)`; the estimator yields confidence `85`,
`shouldTerminateEarly` holds, and the session auto-completes on the fifth
call with the non-neutral label `TJ`. -/
theorem early_termination_scenario (questions : List Question)
    (steps : List (String × String × Nat))
    (hlen : steps.length = 5)
    (hsel : ∀ x ∈ steps, ∃ question answer,
      questions.find? (fun z => z.id == x.1) = some question ∧
      question.answers.find? (fun z => z.id == x.2.1) = some answer ∧
      answer.scoreTF = 2 ∧ answer.scoreJP = 2 ∧
      ∃ answer2, buildAnswerLookup questions x.2.1 = some answer2 ∧
        answer2.scoreTF = 2 ∧ answer2.scoreJP = 2) :
    ∃ s, runAnswers questions initializeSession steps = .ok s ∧
      s.confidence = 85 ∧
      shouldTerminateEarly s = true ∧
      s.isComplete = true ∧
      s.archetype = some Archetype.TJ ∧
      Archetype.TJ ≠ Archetype.Neutral := by
  rcases steps with - | ⟨x1, steps⟩
  · simp at hlen
  rcases steps with - | ⟨x2, steps⟩
  · simp at hlen
  rcases steps with - | ⟨x3, steps⟩
  · simp at hlen
  rcases steps with - | ⟨x4, steps⟩
  · simp at hlen
  rcases steps with - | ⟨x5, steps⟩
  · simp at hlen
  rcases steps with - | ⟨x6, steps⟩
  case cons => simp at hlen
  rcases x1 with ⟨q1, a1, t1⟩
  rcases x2 with ⟨q2, a2, t2⟩
  rcases x3 with ⟨q3, a3, t3⟩
  rcases x4 with ⟨q4, a4, t4⟩
  rcases x5 with ⟨q5, a5, t5⟩
  obtain ⟨Q1, A1, hq1, ha1, hw1, hv1, B1, hb1, hbt1, hbj1⟩ :=
    hsel (q1, a1, t1) (by simp)
  obtain ⟨Q2, A2, hq2, ha2, hw2, hv2, B2, hb2, hbt2, hbj2⟩ :=
    hsel (q2, a2, t2) (by simp)
  obtain ⟨Q3, A3, hq3, ha3, hw3, hv3, B3, hb3, hbt3, hbj3⟩ :=
    hsel (q3, a3, t3) (by simp)
  obtain ⟨Q4, A4, hq4, ha4, hw4, hv4, B4, hb4, hbt4, hbj4⟩ :=
    hsel (q4, a4, t4) (by simp)
  obtain ⟨Q5, A5, hq5, ha5, hw5, hv5, B5, hb5, hbt5, hbj5⟩ :=
    hsel (q5, a5, t5) (by simp)
  have e1 : answerQuestion questions initializeSession q1 a1 t1 = .ok
      { responses := [⟨q1, a1, t1⟩]
        currentScoreTF := 2
        currentScoreJP := 2
        isComplete := false
        archetype := none
        confidence := 73 } := by
    norm_num [answerQuestion, initializeSession, hq1, ha1, hw1, hv1,
      shouldTerminateEarly, MINIMUM_QUESTIONS, MAXIMUM_QUESTIONS,
      CONFIDENCE_THRESHOLD, cc_2_2_1]
  have e2 : answerQuestion questions
      { responses := [⟨q1, a1, t1⟩]
        currentScoreTF := 2
        currentScoreJP := 2
        isComplete := false
        archetype := none
        confidence := 73 } q2 a2 t2 = .ok
      { responses := [⟨q1, a1, t1⟩, ⟨q2, a2, t2⟩]
        currentScoreTF := 4
        currentScoreJP := 4
        isComplete := false
        archetype := none
        confidence := 76 } := by
    norm_num [answerQuestion, hq2, ha2, hw2, hv2,
      shouldTerminateEarly, MINIMUM_QUESTIONS, MAXIMUM_QUESTIONS,
      CONFIDENCE_THRESHOLD, cc_4_4_2]
  have e3 : answerQuestion questions
      { responses := [⟨q1, a1, t1⟩, ⟨q2, a2, t2⟩]
        currentScoreTF := 4
        currentScoreJP := 4
        isComplete := false
        archetype := none
        confidence := 76 } q3 a3 t3 = .ok
      { responses := [⟨q1, a1, t1⟩, ⟨q2, a2, t2⟩, ⟨q3, a3, t3⟩]
        currentScoreTF := 6
        currentScoreJP := 6
        isComplete := false
        archetype := none
        confidence := 79 } := by
    norm_num [answerQuestion, hq3, ha3, hw3, hv3,
      shouldTerminateEarly, MINIMUM_QUESTIONS, MAXIMUM_QUESTIONS,
      CONFIDENCE_THRESHOLD, cc_6_6_3]
  have e4 : answerQuestion questions
      { responses := [⟨q1, a1, t1⟩, ⟨q2, a2, t2⟩, ⟨q3, a3, t3⟩]
        currentScoreTF := 6
        currentScoreJP := 6
        isComplete := false
        archetype := none
        confidence := 79 } q4 a4 t4 = .ok
      { responses := [⟨q1, a1, t1⟩, ⟨q2, a2, t2⟩, ⟨q3, a3, t3⟩, ⟨q4, a4, t4⟩]
        currentScoreTF := 8
        currentScoreJP := 8
        isComplete := false
        archetype := none
        confidence := 82 } := by
    norm_num [answerQuestion, hq4, ha4, hw4, hv4,
      shouldTerminateEarly, MINIMUM_QUESTIONS, MAXIMUM_QUESTIONS,
      CONFIDENCE_THRESHOLD, cc_8_8_4]
  have e5 : answerQuestion questions
      { responses := [⟨q1, a1, t1⟩, ⟨q2, a2, t2⟩, ⟨q3, a3, t3⟩, ⟨q4, a4, t4⟩]
        currentScoreTF := 8
        currentScoreJP := 8
        isComplete := false
        archetype := none
        confidence := 82 } q5 a5 t5 = .ok
      { responses := [⟨q1, a1, t1⟩, ⟨q2, a2, t2⟩, ⟨q3, a3, t3⟩, ⟨q4, a4, t4⟩,
          ⟨q5, a5, t5⟩]
        currentScoreTF := 10
        currentScoreJP := 10
        isComplete := true
        archetype := some Archetype.TJ
        confidence := 85 } := by
    norm_num [answerQuestion, hq5, ha5, hw5, hv5,
      shouldTerminateEarly, MINIMUM_QUESTIONS, MAXIMUM_QUESTIONS,
      CONFIDENCE_THRESHOLD, cc_10_10_5, completeQuiz, calculateArchetype,
      hb1, hb2, hb3, hb4, hb5, hbt1, hbt2, hbt3, hbt4, hbt5,
      hbj1, hbj2, hbj3, hbj4, hbj5, determineArchetype_ten_ten]
  refine ⟨{ responses := [⟨q1, a1, t1⟩, ⟨q2, a2, t2⟩, ⟨q3, a3, t3⟩,
              ⟨q4, a4, t4⟩, ⟨q5, a5, t5⟩]
            currentScoreTF := 10
            currentScoreJP := 10
            isComplete := true
            archetype := some Archetype.TJ
            confidence := 85 }, ?_, rfl, ?_, rfl, rfl, by simp⟩
  · rw [runAnswers_cons_ok e1, runAnswers_cons_ok e2, runAnswers_cons_ok e3,
      runAnswers_cons_ok e4, runAnswers_cons_ok e5]
    exact rfl
  · norm_num [shouldTerminateEarly, MINIMUM_QUESTIONS, CONFIDENCE_THRESHOLD]

/-- Witness for C1: five answers of weight `(+2, +2)` on a concrete bank. -/
theorem early_termination_scenario_witness :
    ∃ s, runAnswers bankTJ initializeSession
        [("q1", "a1", 0), ("q1", "a1", 1), ("q1", "a1", 2), ("q1", "a1", 3),
         ("q1", "a1", 4)] = .ok s ∧
      s.confidence = 85 ∧
      shouldTerminateEarly s = true ∧
      s.isComplete = true ∧
      s.archetype = some Archetype.TJ ∧
      Archetype.TJ ≠ Archetype.Neutral :=
  early_termination_scenario bankTJ
    [("q1", "a1", 0), ("q1", "a1", 1), ("q1", "a1", 2), ("q1", "a1", 3),
     ("q1", "a1", 4)] rfl
    (by
      intro x hx
      simp only [List.mem_cons, List.not_mem_nil, or_false] at hx
      rcases hx with rfl | rfl | rfl | rfl | rfl <;>
        exact ⟨_, _, rfl, rfl, rfl, rfl, _, rfl, rfl, rfl⟩)

end BoardsideQuiz
